import Mathlib

/-!
Shallow embedding of the gmail-assistant batch classification-and-labeling
pipeline: the category model, the classifier's reply validation, the label
resolver and its module-level cache, the search-query construction, the
batch-processing handler, and the frontend orchestration loop, together
with theorems about them.
-/

set_option maxRecDepth 4000

/-- The ten classification categories (the TS union type EmailLabel). -/
inductive EmailLabel
  | TO_REPLY
  | AWAITING_REPLY
  | FYI
  | ACTIONED
  | NEWSLETTER
  | MARKETING
  | CALENDAR
  | RECEIPT
  | NOTIFICATION
  | COLD_EMAIL
deriving DecidableEq, Repr, Fintype

/-- All categories, in the declaration order of the TS record LABEL_MAP
(JS object-value order is insertion order). -/
def allEmailLabels : List EmailLabel :=
  [.TO_REPLY, .AWAITING_REPLY, .FYI, .ACTIONED, .NEWSLETTER,
   .MARKETING, .CALENDAR, .RECEIPT, .NOTIFICATION, .COLD_EMAIL]

/-- The key string of each category in the TS record LABEL_MAP
(the literal spelling of the union member). -/
def labelKey : EmailLabel → String
  | .TO_REPLY => "TO_REPLY"
  | .AWAITING_REPLY => "AWAITING_REPLY"
  | .FYI => "FYI"
  | .ACTIONED => "ACTIONED"
  | .NEWSLETTER => "NEWSLETTER"
  | .MARKETING => "MARKETING"
  | .CALENDAR => "CALENDAR"
  | .RECEIPT => "RECEIPT"
  | .NOTIFICATION => "NOTIFICATION"
  | .COLD_EMAIL => "COLD_EMAIL"

/-- LABEL_MAP: display name of each category (the record values). -/
def LABEL_MAP : EmailLabel → String
  | .TO_REPLY => "To Reply"
  | .AWAITING_REPLY => "Awaiting Reply"
  | .FYI => "FYI"
  | .ACTIONED => "Actioned"
  | .NEWSLETTER => "Newsletter"
  | .MARKETING => "Marketing"
  | .CALENDAR => "Calendar"
  | .RECEIPT => "Receipt"
  | .NOTIFICATION => "Notification"
  | .COLD_EMAIL => "Cold Email"

/-- The key set of LABEL_MAP, as a list of strings. -/
def categoryKeys : List String := allEmailLabels.map labelKey

/-- Embedding of the TS record lookup LABEL_MAP[s]: the category whose key
equals s, if any (record keys are exact strings). -/
def lookupLabelKey (s : String) : Option EmailLabel :=
  allEmailLabels.find? (fun l => labelKey l == s)

/-- Embedding of the JS string method trim(): drop whitespace from both
ends. -/
def jsTrim (s : String) : String :=
  ⟨(((s.data.dropWhile Char.isWhitespace).reverse.dropWhile Char.isWhitespace).reverse)⟩

/-- Embedding of the JS string method toUpperCase() (ASCII case map). -/
def jsToUpperCase (s : String) : String :=
  ⟨s.data.map Char.toUpper⟩

/-- Validation step of classifyEmail once the service call has succeeded
and produced the reply text: the classification is the reply trimmed and
upper-cased; look it up in LABEL_MAP and on a miss return the default
fallback FYI. -/
def classifyEmail (reply : String) : EmailLabel :=
  match lookupLabelKey (jsToUpperCase (jsTrim reply)) with
  | some l => l
  | none => .FYI

theorem lookupLabelKey_eq_none (s : String) (h : s ∉ categoryKeys) :
    lookupLabelKey s = none := by
  rw [lookupLabelKey, List.find?_eq_none]
  intro l hl hcontra
  exact h (List.mem_map.mpr ⟨l, hl, (beq_iff_eq.mp hcontra)⟩)

theorem lookupLabelKey_key (c : EmailLabel) : lookupLabelKey (labelKey c) = some c := by
  cases c <;> rfl

/-- C1: if the classification service's reply, trimmed and upper-cased,
equals the key of a known category then classifyEmail returns that
category; if it is not one of the 10 known category keys, classifyEmail
returns the default category FYI. -/
theorem classifyEmail_validation (reply : String) :
    (∀ c : EmailLabel, jsToUpperCase (jsTrim reply) = labelKey c → classifyEmail reply = c) ∧
    (jsToUpperCase (jsTrim reply) ∉ categoryKeys → classifyEmail reply = .FYI) := by
  constructor
  · intro c hc
    unfold classifyEmail
    rw [hc, lookupLabelKey_key]
  · intro h
    unfold classifyEmail
    rw [lookupLabelKey_eq_none _ h]

/-- Witness for C1 at concrete replies: a recognized reply with surrounding
whitespace and lower case maps to its category, and free-text prose maps to
the FYI fallback. -/
theorem classifyEmail_validation_witness :
    classifyEmail "  to_reply " = .TO_REPLY ∧
    classifyEmail "I think this is spam" = .FYI := by
  constructor
  · exact (classifyEmail_validation "  to_reply ").1 .TO_REPLY (by decide)
  · exact (classifyEmail_validation "I think this is spam").2 (by decide)

/-- The requested mailbox scope of a batch (the request field section). -/
inductive MailSection
  | inbox
  | all
deriving DecidableEq, Repr

/-- The label-exclusion part of the search query built by fetchEmails: one
clause per value of LABEL_MAP, joined by single spaces. -/
def excludeLabels : String :=
  String.intercalate " "
    ((allEmailLabels.map LABEL_MAP).map (fun label => "-label:\"" ++ label ++ "\""))

/-- The base search query built by fetchEmails for each scope. -/
def fetchEmailsQuery : MailSection → String
  | .inbox => "in:inbox " ++ excludeLabels
  | .all => "-in:spam -in:trash " ++ excludeLabels

/-- Number of positions of s at which pat occurs as a contiguous
substring. -/
def countOccsAux (pat : List Char) : List Char → Nat
  | [] => 0
  | c :: rest => (if pat.isPrefixOf (c :: rest) then 1 else 0) + countOccsAux pat rest

/-- Number of occurrences of the string pat inside the string s. -/
def countOccs (pat s : String) : Nat := countOccsAux pat.data s.data

/-- C4: the inbox-scope query contains in:inbox, exactly one label
exclusion clause per managed category name, and no in:spam or in:trash
clause; the all-scope query contains -in:spam -in:trash, the same label
exclusions, and omits in:inbox. -/
theorem fetchEmailsQuery_scopes :
    (0 < countOccs "in:inbox" (fetchEmailsQuery .inbox) ∧
     (∀ c : EmailLabel,
        countOccs ("-label:\"" ++ LABEL_MAP c ++ "\"") (fetchEmailsQuery .inbox) = 1) ∧
     countOccs "in:spam" (fetchEmailsQuery .inbox) = 0 ∧
     countOccs "in:trash" (fetchEmailsQuery .inbox) = 0) ∧
    (0 < countOccs "-in:spam -in:trash" (fetchEmailsQuery .all) ∧
     (∀ c : EmailLabel,
        countOccs ("-label:\"" ++ LABEL_MAP c ++ "\"") (fetchEmailsQuery .all) = 1) ∧
     countOccs "in:inbox" (fetchEmailsQuery .all) = 0) := by
  decide

/-- Embedding of the JS string method toLowerCase() (ASCII case map). -/
def jsToLowerCase (s : String) : String :=
  ⟨s.data.map Char.toLower⟩

/-- A Gmail label object: provider-assigned id plus display name. -/
structure GmailLabel where
  id : String
  name : String
deriving DecidableEq, Repr

/-- State of the edge-function process as seen by the label resolver: the
provider-side label list, the module-level labelCache variable, and
counters of the network calls issued (label-list fetches, label creates)
plus a source of fresh provider-assigned ids. -/
structure GmailState where
  providerLabels : List GmailLabel
  labelCache : Option (List GmailLabel)
  fetchLabelCalls : Nat
  createLabelCalls : Nat
  nextLabelId : Nat
deriving DecidableEq, Repr

/-- getAllLabels: return the cached list if the cache is set, otherwise
fetch the provider's label list, memoize it and return it. -/
def getAllLabels (s : GmailState) : List GmailLabel × GmailState :=
  match s.labelCache with
  | some cache => (cache, s)
  | none =>
      (s.providerLabels,
       { s with labelCache := some s.providerLabels,
                fetchLabelCalls := s.fetchLabelCalls + 1 })

/-- The case-insensitive name match used by getOrCreateLabel's find call. -/
def nameMatches (labelName : String) (l : GmailLabel) : Bool :=
  jsToLowerCase l.name == jsToLowerCase labelName

/-- getOrCreateLabel: look the name up case-insensitively in the full label
list; on a hit return the existing id; on a miss issue a create call, push
the new label onto the cache (when the cache is set), and return the new
id. -/
def getOrCreateLabel (labelName : String) (s : GmailState) : String × GmailState :=
  let r := getAllLabels s
  match r.1.find? (nameMatches labelName) with
  | some existingLabel => (existingLabel.id, r.2)
  | none =>
      let newLabel : GmailLabel :=
        ⟨"Label_" ++ toString r.2.nextLabelId, labelName⟩
      let s2 : GmailState :=
        { r.2 with
          providerLabels := r.2.providerLabels ++ [newLabel],
          createLabelCalls := r.2.createLabelCalls + 1,
          nextLabelId := r.2.nextLabelId + 1 }
      let s3 : GmailState :=
        match s2.labelCache with
        | some cache => { s2 with labelCache := some (cache ++ [newLabel]) }
        | none => s2
      (newLabel.id, s3)

theorem getOrCreateLabel_post (s : GmailState) (n : String) :
    ∃ L lab, ((getOrCreateLabel n s).2).labelCache = some L ∧
      L.find? (nameMatches n) = some lab ∧
      lab.id = (getOrCreateLabel n s).1 := by
  unfold getOrCreateLabel getAllLabels
  rcases hc : s.labelCache with _ | L0
  · rcases hf : s.providerLabels.find? (nameMatches n) with _ | lab
    · simp only [hf]
      refine ⟨_, ⟨"Label_" ++ toString s.nextLabelId, n⟩, rfl, ?_, rfl⟩
      rw [List.find?_append, hf]
      simp [nameMatches]
    · simp only [hf]
      exact ⟨_, _, rfl, hf, rfl⟩
  · rcases hf : L0.find? (nameMatches n) with _ | lab
    · simp only [hf]
      refine ⟨L0 ++ [⟨"Label_" ++ toString s.nextLabelId, n⟩],
              ⟨"Label_" ++ toString s.nextLabelId, n⟩, ?_, ?_, rfl⟩
      · simp [hc]
      · rw [List.find?_append, hf]
        simp [nameMatches]
    · simp only [hf]
      exact ⟨_, _, hc, hf, rfl⟩

theorem getOrCreateLabel_hit (s : GmailState) (n : String)
    (L : List GmailLabel) (lab : GmailLabel)
    (hc : s.labelCache = some L) (hf : L.find? (nameMatches n) = some lab) :
    getOrCreateLabel n s = (lab.id, s) := by
  unfold getOrCreateLabel getAllLabels
  rw [hc]
  simp [hf]

theorem getOrCreateLabel_createCalls (s : GmailState) (n : String) :
    ((getOrCreateLabel n s).2).createLabelCalls ≤ s.createLabelCalls + 1 := by
  unfold getOrCreateLabel getAllLabels
  rcases hc : s.labelCache with _ | L0
  · rcases hf : s.providerLabels.find? (nameMatches n) with _ | lab <;> simp [hf]
  · rcases hf : L0.find? (nameMatches n) with _ | lab <;> simp [hf, hc]

/-- An operation of the label resolver observed by the label cache: a
label-list lookup (getAllLabels, also reached through getOurLabelIds) or a
resolution of one name (getOrCreateLabel). -/
inductive LabelOp
  | getAll
  | getOrCreate (name : String)
deriving DecidableEq, Repr

/-- Effect of one resolver operation on the process state. -/
def runLabelOp (op : LabelOp) (s : GmailState) : GmailState :=
  match op with
  | .getAll => (getAllLabels s).2
  | .getOrCreate n => (getOrCreateLabel n s).2

/-- Effect of a sequence of resolver operations (one run's worth). -/
def runLabelOps (ops : List LabelOp) (s : GmailState) : GmailState :=
  ops.foldl (fun st op => runLabelOp op st) s

/-- The state of a freshly started edge-function process: the module-level
labelCache variable is initialized to null. -/
def initialGmailState (provider : List GmailLabel) : GmailState :=
  { providerLabels := provider, labelCache := none,
    fetchLabelCalls := 0, createLabelCalls := 0, nextLabelId := 0 }

/-- A process serves several runs in sequence on the same module state:
labelCache is a module-level variable, and nothing resets it at a run
boundary. -/
def runProcess (runs : List (List LabelOp)) (s : GmailState) : GmailState :=
  runs.foldl (fun st ops => runLabelOps ops st) s

theorem runLabelOp_find_preserved (op : LabelOp) (s : GmailState)
    (L : List GmailLabel) (lab : GmailLabel) (p : GmailLabel → Bool)
    (hc : s.labelCache = some L) (hf : L.find? p = some lab) :
    ∃ L', (runLabelOp op s).labelCache = some L' ∧ L'.find? p = some lab := by
  cases op with
  | getAll =>
      unfold runLabelOp getAllLabels
      rw [hc]
      exact ⟨L, hc, hf⟩
  | getOrCreate n' =>
      unfold runLabelOp getOrCreateLabel getAllLabels
      rw [hc]
      rcases hf' : L.find? (nameMatches n') with _ | lab'
      · simp only [hf']
        refine ⟨L ++ [⟨"Label_" ++ toString s.nextLabelId, n'⟩], ?_, ?_⟩
        · simp [hc]
        · rw [List.find?_append, hf]
          rfl
      · simp only [hf']
        exact ⟨L, hc, hf⟩

theorem runLabelOps_find_preserved (ops : List LabelOp) (s : GmailState)
    (L : List GmailLabel) (lab : GmailLabel) (p : GmailLabel → Bool)
    (hc : s.labelCache = some L) (hf : L.find? p = some lab) :
    ∃ L', (runLabelOps ops s).labelCache = some L' ∧ L'.find? p = some lab := by
  induction ops generalizing s L with
  | nil => exact ⟨L, hc, hf⟩
  | cons op ops ih =>
      obtain ⟨L', hc', hf'⟩ := runLabelOp_find_preserved op s L lab p hc hf
      exact ih (runLabelOp op s) L' hc' hf'

/-- C2: resolving a name, then performing any other resolver operations of
the run, then resolving the same name again yields the same label id the
first resolution returned, and the later resolution is a pure cache hit —
it leaves the state entirely unchanged, so it issues no create call and no
fetch; the first resolution issues at most one create call. Hence every
subsequent lookup of the name in the run hits the cache and at most one
create-label call is ever issued for it. -/
theorem getOrCreateLabel_idempotent (s : GmailState) (n : String)
    (ops : List LabelOp) :
    (getOrCreateLabel n (runLabelOps ops (getOrCreateLabel n s).2)).1
      = (getOrCreateLabel n s).1 ∧
    (getOrCreateLabel n (runLabelOps ops (getOrCreateLabel n s).2)).2
      = runLabelOps ops (getOrCreateLabel n s).2 ∧
    ((getOrCreateLabel n s).2).createLabelCalls ≤ s.createLabelCalls + 1 := by
  obtain ⟨L, lab, hc, hf, hid⟩ := getOrCreateLabel_post s n
  obtain ⟨L', hc', hf'⟩ :=
    runLabelOps_find_preserved ops _ L lab (nameMatches n) hc hf
  rw [getOrCreateLabel_hit _ n L' lab hc' hf']
  exact ⟨hid, rfl, getOrCreateLabel_createCalls s n⟩

theorem runLabelOp_cache_isSome (op : LabelOp) (s : GmailState) :
    ((runLabelOp op s).labelCache).isSome = true := by
  cases op with
  | getAll =>
      unfold runLabelOp getAllLabels
      rcases hc : s.labelCache with _ | L0 <;> simp [hc]
  | getOrCreate n =>
      obtain ⟨L, lab, hcache, -, -⟩ := getOrCreateLabel_post s n
      simp [runLabelOp, hcache]

theorem runLabelOp_fetch (op : LabelOp) (s : GmailState) :
    (runLabelOp op s).fetchLabelCalls
      = s.fetchLabelCalls + (if s.labelCache.isSome then 0 else 1) := by
  cases op with
  | getAll =>
      unfold runLabelOp getAllLabels
      rcases hc : s.labelCache with _ | L0 <;> simp [hc]
  | getOrCreate n =>
      unfold runLabelOp getOrCreateLabel getAllLabels
      rcases hc : s.labelCache with _ | L0
      · rcases hf : s.providerLabels.find? (nameMatches n) with _ | lab <;>
          simp [hf, hc]
      · rcases hf : L0.find? (nameMatches n) with _ | lab <;>
          simp [hf, hc]

/-- Invariant tying the fetch counter to the cache: once the cache is set
no further label-list fetch happens, and at most one has happened. -/
def fetchOnceInv (s : GmailState) : Prop :=
  s.fetchLabelCalls + (if s.labelCache.isSome then 0 else 1) ≤ 1

theorem runLabelOp_fetchOnceInv (op : LabelOp) (s : GmailState)
    (h : fetchOnceInv s) : fetchOnceInv (runLabelOp op s) := by
  unfold fetchOnceInv at h ⊢
  rw [runLabelOp_fetch, runLabelOp_cache_isSome]
  cases hb : s.labelCache.isSome <;> simp [hb] at h ⊢ <;> omega

theorem runLabelOps_fetchOnceInv (ops : List LabelOp) (s : GmailState)
    (h : fetchOnceInv s) : fetchOnceInv (runLabelOps ops s) := by
  induction ops generalizing s with
  | nil => exact h
  | cons op ops ih => exact ih _ (runLabelOp_fetchOnceInv op s h)

theorem runProcess_fetchOnceInv (runs : List (List LabelOp)) (s : GmailState)
    (h : fetchOnceInv s) : fetchOnceInv (runProcess runs s) := by
  induction runs generalizing s with
  | nil => exact h
  | cons ops runs ih => exact ih _ (runLabelOps_fetchOnceInv ops s h)

/-- C6 amended: starting from a fresh process, the full label list is
fetched from the provider at most once per process (hence at most once per
run), and every lookup consults the memoized list first — a set cache is
returned as-is with no network call. The cache is process-local, but it is
not run-local: it survives run boundaries within one process. -/
theorem labelCache_memoized_per_process (runs : List (List LabelOp))
    (provider : List GmailLabel) :
    (runProcess runs (initialGmailState provider)).fetchLabelCalls ≤ 1 ∧
    (∀ (s : GmailState) (c : List GmailLabel),
        s.labelCache = some c → getAllLabels s = (c, s)) := by
  constructor
  · have h := runProcess_fetchOnceInv runs (initialGmailState provider)
      (by simp [fetchOnceInv, initialGmailState])
    unfold fetchOnceInv at h
    cases hb : ((runProcess runs (initialGmailState provider)).labelCache).isSome <;>
      simp [hb] at h <;> omega
  · intro s c hc
    unfold getAllLabels
    rw [hc]

/-- Witness for the amended C6 at a concrete trace and a concrete cached
state. -/
theorem labelCache_memoized_per_process_witness :
    (runProcess [[LabelOp.getAll, LabelOp.getOrCreate "To Reply"], [LabelOp.getAll]]
        (initialGmailState [])).fetchLabelCalls ≤ 1 ∧
    getAllLabels
        { providerLabels := [], labelCache := some [], fetchLabelCalls := 1,
          createLabelCalls := 0, nextLabelId := 0 }
      = ([], { providerLabels := [], labelCache := some [], fetchLabelCalls := 1,
               createLabelCalls := 0, nextLabelId := 0 }) := by
  exact ⟨(labelCache_memoized_per_process
            [[LabelOp.getAll, LabelOp.getOrCreate "To Reply"], [LabelOp.getAll]] []).1,
         (labelCache_memoized_per_process [] []).2 _ [] rfl⟩

/-- Counterexample to C6 as stated: after a first run has populated the
module-level cache (one fetch, cache set), a second, fresh run that looks
the label list up again issues no new fetch — the fetch counter stays at 1
— so a fresh run does not re-fetch and the cache does persist across runs
within one process. -/
theorem labelCache_cross_run_persistence :
    (runProcess [[LabelOp.getAll]] (initialGmailState [])).fetchLabelCalls = 1 ∧
    (runProcess [[LabelOp.getAll]] (initialGmailState [])).labelCache = some [] ∧
    (runProcess [[LabelOp.getAll], [LabelOp.getAll]]
        (initialGmailState [])).fetchLabelCalls = 1 := by
  decide

/-- An email as hydrated by fetchEmails: headers, snippet and the labels
currently on the message. -/
structure Email where
  id : String
  threadId : String
  subject : String
  «from» : String
  snippet : String
  date : String
  labelIds : List String
deriving DecidableEq, Repr

/-- The success payload of the process-emails function (the TS interface
ProcessingResult). -/
structure ProcessingResult where
  total : Nat
  processed : Nat
  skipped : Nat
  errors : Nat
  results : List (Email × EmailLabel)
  nextPageToken : Option String
deriving DecidableEq, Repr

/-- Body of the per-email try block in serve, folded over the page: on ok
the pair is appended to results, on a thrown exception the error counter
is incremented and the email is omitted; either way the loop moves on to
the next email. -/
def processStep (step : Email → Except String EmailLabel)
    (acc : List (Email × EmailLabel) × Nat) (email : Email) :
    List (Email × EmailLabel) × Nat :=
  match step email with
  | .ok label => (acc.1 ++ [(email, label)], acc.2)
  | .error _ => (acc.1, acc.2 + 1)

/-- The success path of the serve handler once the list call has
succeeded: fetched holds one entry per listed message id, none when that
message's detail fetch failed (the loop skips it with continue) and some
email when hydration succeeded; step is the per-email composite of
classifyEmail, getOrCreateLabel and applyLabel, error being any exception
thrown by one of them. The response carries total = hydrated count,
processed = results length, the never-incremented skipped, the error
count, the results and the provider's next page token. -/
def serve (step : Email → Except String EmailLabel)
    (fetched : List (Option Email)) (nextPageToken : Option String) :
    ProcessingResult :=
  let emails := fetched.filterMap id
  let r := emails.foldl (processStep step) ([], 0)
  let skipped := 0
  { total := emails.length, processed := r.1.length, skipped := skipped,
    errors := r.2, results := r.1, nextPageToken := nextPageToken }

/-- Whether the per-email processing of e throws. -/
def stepThrows (step : Email → Except String EmailLabel) (e : Email) : Bool :=
  match step e with
  | .ok _ => false
  | .error _ => true

/-- The results entry the per-email processing of e contributes, if any. -/
def stepResult (step : Email → Except String EmailLabel) (e : Email) :
    Option (Email × EmailLabel) :=
  match step e with
  | .ok label => some (e, label)
  | .error _ => none

theorem processStep_foldl (step : Email → Except String EmailLabel)
    (emails : List Email) :
    ∀ acc : List (Email × EmailLabel) × Nat,
      emails.foldl (processStep step) acc
        = (acc.1 ++ emails.filterMap (stepResult step),
           acc.2 + emails.countP (stepThrows step)) := by
  induction emails with
  | nil => intro acc; simp
  | cons e emails ih =>
      intro acc
      rw [List.foldl_cons, ih]
      cases h : step e with
      | error msg =>
          simp [processStep, stepResult, stepThrows, h, List.countP_cons]
          omega
      | ok label =>
          simp [processStep, stepResult, stepThrows, h, List.countP_cons]

theorem length_filterMap_stepResult (step : Email → Except String EmailLabel)
    (l : List Email) :
    (l.filterMap (stepResult step)).length + l.countP (stepThrows step)
      = l.length := by
  induction l with
  | nil => simp
  | cons e l ih =>
      cases h : step e <;>
        simp [stepResult, stepThrows, h, List.countP_cons, List.filterMap_cons] <;>
        omega

/-- C3: on a page whose hydrated emails number N and of which exactly K
throw during classify/resolve/apply, the response has errors = K,
processed = N - K and results.length = processed; the throwing emails are
exactly the ones omitted from results, and processing runs the whole page
(no failure aborts the batch). -/
theorem serve_error_accounting (step : Email → Except String EmailLabel)
    (fetched : List (Option Email)) (tok : Option String) :
    (serve step fetched tok).errors
      = (fetched.filterMap id).countP (stepThrows step) ∧
    (serve step fetched tok).processed
      = (fetched.filterMap id).length
          - (fetched.filterMap id).countP (stepThrows step) ∧
    (serve step fetched tok).results.length = (serve step fetched tok).processed ∧
    (serve step fetched tok).results
      = (fetched.filterMap id).filterMap (stepResult step) := by
  have hl := length_filterMap_stepResult step (fetched.filterMap id)
  simp only [serve, processStep_foldl]
  refine ⟨by simp, ?_, by simp, by simp⟩
  simp only [List.nil_append]
  omega

/-- C5: a message whose detail fetch fails is silently dropped: inserting
a failed hydration anywhere in the page leaves the whole response
unchanged — no error is counted, nothing is added to results — and total
counts only the successfully hydrated messages. -/
theorem serve_hydration_failure (step : Email → Except String EmailLabel)
    (l1 l2 : List (Option Email)) (tok : Option String) :
    serve step (l1 ++ none :: l2) tok = serve step (l1 ++ l2) tok ∧
    (serve step (l1 ++ l2) tok).total = ((l1 ++ l2).filterMap id).length := by
  constructor
  · have h : (l1 ++ none :: l2).filterMap id = (l1 ++ l2).filterMap id := by
      simp
    simp only [serve, h]
  · rfl

/-- C10: every success payload of the batch processor reports skipped = 0;
the counter is declared, never incremented on any path, and returned
as-is. -/
theorem serve_skipped_zero (step : Email → Except String EmailLabel)
    (fetched : List (Option Email)) (tok : Option String) :
    (serve step fetched tok).skipped = 0 := rfl

/-- The UI-side running statistics accumulated by handleProcessSection. -/
structure TotalStats where
  total : Nat
  processed : Nat
  skipped : Nat
  errors : Nat
  batches : Nat
deriving DecidableEq, Repr

/-- How the orchestration loop ended: no next page token (completed), stop
requested at a batch boundary (stopped), or an exception thrown by the
batch call itself (failed). -/
inductive RunOutcome
  | completed
  | stopped
  | failed
deriving DecidableEq, Repr

/-- Observable outcome of one orchestration run: the accumulated
statistics, the accumulated per-message results, the pageToken argument of
each batch call made (in order), and how the loop ended. -/
structure RunResult where
  stats : TotalStats
  allResults : List (Email × EmailLabel)
  batchCalls : List (Option String)
  outcome : RunOutcome
deriving DecidableEq, Repr

/-- The while-true loop of handleProcessSection. script lists the
successive responses of processOneBatch — ok carries the parsed
ProcessingResult, error a thrown failure, and an exhausted script stands
for a call that itself fails. stopRequested k is the value of the stop
flag observed at the boundary after the k-th batch completed; the flag is
read nowhere else. After each batch the loop adds the batch counts into
the running stats, appends its results, and then checks, in this order,
for a missing next page token and for a stop request. -/
def runLoop (stopRequested : Nat → Bool) :
    List (Except String ProcessingResult) → Option String → TotalStats →
    List (Email × EmailLabel) → List (Option String) → RunResult
  | [], _, stats, acc, calls =>
      { stats := stats, allResults := acc, batchCalls := calls,
        outcome := .failed }
  | resp :: rest, cursor, stats, acc, calls =>
      let calls' := calls ++ [cursor]
      match resp with
      | .error _ =>
          { stats := stats, allResults := acc, batchCalls := calls',
            outcome := .failed }
      | .ok batchResult =>
          let stats' : TotalStats :=
            { total := stats.total + batchResult.total,
              processed := stats.processed + batchResult.processed,
              skipped := stats.skipped + batchResult.skipped,
              errors := stats.errors + batchResult.errors,
              batches := stats.batches + 1 }
          let acc' := acc ++ batchResult.results
          match batchResult.nextPageToken with
          | none =>
              { stats := stats', allResults := acc', batchCalls := calls',
                outcome := .completed }
          | some tok =>
              if stopRequested stats'.batches then
                { stats := stats', allResults := acc', batchCalls := calls',
                  outcome := .stopped }
              else
                runLoop stopRequested rest (some tok) stats' acc' calls'

/-- handleProcessSection: reset the stop flag and the statistics, then run
the batch loop starting from no page token. -/
def handleProcessSection (script : List (Except String ProcessingResult))
    (stopRequested : Nat → Bool) : RunResult :=
  runLoop stopRequested script none
    { total := 0, processed := 0, skipped := 0, errors := 0, batches := 0 } [] []

/-- C8: with no stop request and three scripted batch responses carrying
cursors A, B and then none, the run makes exactly three batch calls, with
page tokens none, A, B in that order, ends completed, and its accumulated
statistics are the component-wise sums of the three batch results, with
the accumulated result list the concatenation of the three batches'
results — whatever responses might follow the third are never requested. -/
theorem handleProcessSection_three_batches
    (b1 b2 b3 : ProcessingResult) (A B : String)
    (extra : List (Except String ProcessingResult)) (stopRequested : Nat → Bool)
    (h1 : b1.nextPageToken = some A) (h2 : b2.nextPageToken = some B)
    (h3 : b3.nextPageToken = none) (hstop : ∀ k, stopRequested k = false) :
    handleProcessSection (.ok b1 :: .ok b2 :: .ok b3 :: extra) stopRequested
      = { stats := { total := b1.total + b2.total + b3.total,
                     processed := b1.processed + b2.processed + b3.processed,
                     skipped := b1.skipped + b2.skipped + b3.skipped,
                     errors := b1.errors + b2.errors + b3.errors,
                     batches := 3 },
          allResults := b1.results ++ b2.results ++ b3.results,
          batchCalls := [none, some A, some B],
          outcome := .completed } := by
  simp [handleProcessSection, runLoop, h1, h2, h3, hstop]

/-- Witness for C8 at a concrete script of three batches. -/
theorem handleProcessSection_three_batches_witness :
    handleProcessSection
        [.ok { total := 2, processed := 1, skipped := 0, errors := 1,
               results := [], nextPageToken := some "A" },
         .ok { total := 3, processed := 3, skipped := 0, errors := 0,
               results := [], nextPageToken := some "B" },
         .ok { total := 1, processed := 0, skipped := 0, errors := 1,
               results := [], nextPageToken := none }]
        (fun _ => false)
      = { stats := { total := 6, processed := 4, skipped := 0, errors := 2,
                     batches := 3 },
          allResults := [],
          batchCalls := [none, some "A", some "B"],
          outcome := .completed } := by
  exact handleProcessSection_three_batches _ _ _ "A" "B" [] (fun _ => false)
    rfl rfl rfl (fun _ => rfl)

/-- C9: if batch 1 completes with a next-page cursor but the stop flag is
observed set at the following batch boundary, the run ends stopped after
exactly one batch call (made with no page token), keeping batch 1's
statistics and results — whatever the script holds for later batches is
never requested, and the flag is only ever read at batch boundaries. -/
theorem handleProcessSection_stop_after_first
    (b1 : ProcessingResult) (A : String)
    (rest : List (Except String ProcessingResult)) (stopRequested : Nat → Bool)
    (h1 : b1.nextPageToken = some A) (hstop : stopRequested 1 = true) :
    handleProcessSection (.ok b1 :: rest) stopRequested
      = { stats := { total := b1.total, processed := b1.processed,
                     skipped := b1.skipped, errors := b1.errors, batches := 1 },
          allResults := b1.results,
          batchCalls := [none],
          outcome := .stopped } := by
  simp [handleProcessSection, runLoop, h1, hstop]

/-- Witness for C9 at a concrete first batch. -/
theorem handleProcessSection_stop_after_first_witness :
    handleProcessSection
        [.ok { total := 2, processed := 1, skipped := 0, errors := 1,
               results := [], nextPageToken := some "A" },
         .ok { total := 3, processed := 3, skipped := 0, errors := 0,
               results := [], nextPageToken := none }]
        (fun _ => true)
      = { stats := { total := 2, processed := 1, skipped := 0, errors := 1,
                     batches := 1 },
          allResults := [],
          batchCalls := [none],
          outcome := .stopped } := by
  exact handleProcessSection_stop_after_first _ "A" _ (fun _ => true) rfl rfl

/-- The JSON body of the modify-message call issued by applyLabel. Only
addLabelIds is present in the source literal; a removeLabelIds field is
absent, which removes nothing, modeled as the empty list (the source
comment: do not archive or mark as read — keep in inbox as unread). -/
structure ModifyMessageRequest where
  addLabelIds : List String
  removeLabelIds : List String
deriving DecidableEq, Repr

/-- The request body applyLabel sends for a resolved label id. -/
def applyLabelBody (labelId : String) : ModifyMessageRequest :=
  { addLabelIds := [labelId], removeLabelIds := [] }

/-- C7: the modify-message payload contains exactly the one resolved label
id as an addition and never lists the INBOX or UNREAD markers (or anything
else) for removal, so applying a label leaves inbox membership and the
unread state untouched. -/
theorem applyLabelBody_frame (labelId : String) :
    (applyLabelBody labelId).addLabelIds = [labelId] ∧
    (applyLabelBody labelId).removeLabelIds = [] ∧
    "INBOX" ∉ (applyLabelBody labelId).removeLabelIds ∧
    "UNREAD" ∉ (applyLabelBody labelId).removeLabelIds := by
  refine ⟨rfl, rfl, ?_, ?_⟩ <;> simp [applyLabelBody]
